import Mathlib

/-!
Verification development for the mangabuff trading engine.

This file gives a shallow embedding, in Lean 4, of the trading
orchestration core of the repository: the trade manager (trade.py), the
card selector (card_selector.py), the owners processor
(owners_parser.py), the recovery manager and main processing loop
(main.py), the daily statistics manager (daily_stats.py), and the
sliding-window rate limiter (whose constants live in config.py).

Python sets are modelled as duplicate-free lists built with an
insert-if-absent operation, Python dicts as insertion-ordered
association lists, and every network interaction as an oracle value
supplied as an explicit argument (the code only ever branches on the
structured outcome of a call, so an oracle argument captures exactly the
information flow).  Functions that in Python mutate an object instead
return the updated state.  Where a returned triple carries a trailing
Nat, that Nat counts the outbound network operations the call performed.
-/

namespace Mangabuff

/-! ## Constants from src/config.py -/

def CARDS_PER_BATCH : Nat := 10000

def RATE_LIMIT_PER_MINUTE : Nat := 66

def RATE_LIMIT_WINDOW : Nat := 60

def MAX_CARD_SELECTION_ATTEMPTS : Nat := 50

def FIRST_PAGE_SKIP_OWNERS : Nat := 6

def MAX_DAILY_DONATIONS : Int := 50

def MAX_DAILY_REPLACEMENTS : Int := 10

/-! ## Trade manager (src/trade.py, class TradeManager) -/

/-- Insert into a Python-set-as-list: a no-op when the element is already
present, mirroring set.add. -/
def listInsert {β : Type} [DecidableEq β] (s : List β) (x : β) : List β :=
  if x ∈ s then s else x :: s

/-- Mutable state of a TradeManager: the sent-trade ledger
(self.sent_trades, a set of (receiver_id, card_id) pairs) and the set of
locked instance ids (self.locked_cards). -/
structure TMState where
  sent_trades : List (Nat × Nat)
  locked_cards : List Nat
deriving Repr, DecidableEq

/-- TradeManager.has_trade_sent: membership test in the sent-trade ledger. -/
def has_trade_sent (st : TMState) (receiverId cardId : Nat) : Bool :=
  decide ((receiverId, cardId) ∈ st.sent_trades)

/-- TradeManager.is_my_card_locked: membership test in the locked set. -/
def is_my_card_locked (st : TMState) (instanceId : Nat) : Bool :=
  decide (instanceId ∈ st.locked_cards)

/-- TradeManager.mark_trade_sent: add the pair to the ledger. -/
def mark_trade_sent (st : TMState) (receiverId cardId : Nat) : TMState :=
  { st with sent_trades := listInsert st.sent_trades (receiverId, cardId) }

/-- TradeManager.clear_sent_trades: empty the ledger and unlock every card. -/
def clear_sent_trades (_st : TMState) : TMState :=
  { sent_trades := [], locked_cards := [] }

/-- TradeManager.create_trade_direct_api.  The oracle Bool says whether the
response was a success response; on success the offered instance is
locked, on any non-success outcome (429, 422, other status, network
error) the state is unchanged and False is returned. -/
def create_trade_direct_api (st : TMState) (myInstanceId : Nat) (ok : Bool) :
    Bool × TMState :=
  if ok then
    (true, { st with locked_cards := listInsert st.locked_cards myInstanceId })
  else (false, st)

/-- Network-facing outcomes consumed by one send_trade_to_owner call:
the result of find_partner_card_instance (never 0 when present, because
the source only returns a truthy instance id) and whether the
trades/create call came back as a success response. -/
structure TradeOracle where
  findPartner : Option Nat
  createOk : Bool
deriving Repr, DecidableEq

/-- Function send_trade_to_owner of src/trade.py, with an explicit
TradeManager state.  Returns (result, new state, number of outbound
network operations performed). -/
def send_trade_to_owner (env : TradeOracle) (ownerId myInstanceId hisCardId : Nat)
    (dryRun : Bool) (st : TMState) : Bool × TMState × Nat :=
  if myInstanceId = 0 then (false, st, 0)
  else if !dryRun && has_trade_sent st ownerId hisCardId then (false, st, 0)
  else if dryRun then (true, st, 0)
  else
    match env.findPartner with
    | none => (false, st, 1)
    | some _ =>
      let r := create_trade_direct_api st myInstanceId env.createOk
      if r.1 then (true, mark_trade_sent r.2 ownerId hisCardId, 2)
      else (false, r.2, 2)

/-- One recorded call to send_trade_to_owner: its oracle outcomes and its
arguments. -/
structure TradeCall where
  env : TradeOracle
  ownerId : Nat
  myInstanceId : Nat
  hisCardId : Nat
  dryRun : Bool
deriving Repr, DecidableEq

/-- Replay a list of send_trade_to_owner calls against a TradeManager
state, threading the state through. -/
def runTradeCalls (st : TMState) : List TradeCall → TMState
  | [] => st
  | c :: rest =>
      runTradeCalls
        (send_trade_to_owner c.env c.ownerId c.myInstanceId c.hisCardId c.dryRun st).2.1
        rest

/-! ## Card selector (src/card_selector.py, class CardSelector)

The HTML-shaping helpers extract_card_data and is_cache_valid live in a
utils module that only their callers import here; they are modelled as
oracle functions inside SelEnv, as is the count_wants network lookup
(parsers.py), random.choice, and random.shuffle.  The inventory is a
list over an abstract raw-card type; parsed_inventory is an
insertion-ordered association list from card-id strings to cached
entries, mirroring the Python dict.  The wall clock is modelled as
constant within one selection call (nowStr / nowTime).  The ceiling
constant MAX_WANTERS_FOR_TRADE is imported by card_selector.py from
config but absent from src/config.py, so every definition takes the
ceiling maxWanters as an explicit argument. -/

/-- Structured fields of one owned card, as produced by the
extract_card_data boundary helper. -/
structure CardData where
  card_id : Nat
  name : String
  rank : String
  instance_id : Nat
deriving Repr, DecidableEq

/-- One ParsedCardCache entry, as stored in parsed_inventory.  A missing
instance_id field in a deserialized entry reads as 0 through
dict.get, so the field is total here with 0 for absent. -/
structure Entry where
  card_id : Nat
  name : String
  rank : String
  wanters_count : Int
  timestamp : Nat
  cached_at : String
  instance_id : Nat
deriving Repr, DecidableEq

def entryDefault : Entry :=
  { card_id := 0, name := "", rank := "",
    wanters_count := 0, timestamp := 0, cached_at := "", instance_id := 0 }

/-- Oracles consumed by one select_best_card call: the extract_card_data
shaping helper, the is_cache_valid TTL test on a cached_at stamp, the
k-th count_wants network lookup, random.choice, random.shuffle (as a
reordering of the candidate list), and the current time. -/
structure SelEnv (α : Type) where
  extract : α → Option CardData
  cacheValidAt : String → Bool
  countWants : Nat → Int
  pick : List Entry → Entry
  shuffled : List α → List α
  nowStr : String
  nowTime : Nat

/-- Dict lookup on the association-list model of parsed_inventory. -/
def lookupA : List (String × Entry) → String → Option Entry
  | [], _ => none
  | (k, v) :: rest, key => if k = key then some v else lookupA rest key

/-- Dict assignment: replace the value in place when the key exists,
append otherwise (Python dicts keep insertion order). -/
def updateA : List (String × Entry) → String → Entry → List (String × Entry)
  | [], key, e => [(key, e)]
  | (k, v) :: rest, key, e =>
      if k = key then (k, e) :: rest else (k, v) :: updateA rest key e

/-- CardSelector.is_card_available: True when the instance is not locked. -/
def is_card_available (locked : List Nat) (instanceId : Nat) : Bool :=
  decide (instanceId ∉ locked)

/-- CardSelector.parse_and_cache_card.  Returns the parsed entry (or none),
the updated parsed_inventory, and the updated count_wants call counter.
A valid cache hit returns the cached entry with its instance_id
refreshed to the inventory card being examined; otherwise the
desirability is looked up, rejected when negative (lookup failure) or
above the ceiling, and cached on acceptance. -/
def parse_and_cache_card {α : Type} (env : SelEnv α) (locked : List Nat)
    (maxWanters : Int) (card : α) (parsed : List (String × Entry)) (k : Nat) :
    Option Entry × List (String × Entry) × Nat :=
  match env.extract card with
  | none => (none, parsed, k)
  | some cd =>
    if !(is_card_available locked cd.instance_id) then (none, parsed, k)
    else
      let key := toString cd.card_id
      let cachedHit : Option Entry :=
        match lookupA parsed key with
        | some e => if env.cacheValidAt e.cached_at then some e else none
        | none => none
      match cachedHit with
      | some e =>
        let e2 := { e with instance_id := cd.instance_id }
        (some e2, updateA parsed key e2, k)
      | none =>
        let w := env.countWants k
        if w < 0 then (none, parsed, k + 1)
        else if w > maxWanters then (none, parsed, k + 1)
        else
          let e : Entry :=
            { card_id := cd.card_id, name := cd.name,
              rank := cd.rank, wanters_count := w, timestamp := env.nowTime,
              cached_at := env.nowStr, instance_id := cd.instance_id }
          (some e, updateA parsed key e, k + 1)

/-- CardSelector.filter_cards_by_rank: keep the raw cards whose extracted
rank matches the target and whose instance is not locked. -/
def filter_cards_by_rank {α : Type} (env : SelEnv α) (locked : List Nat)
    (inventory : List α) (targetRank : String) : List α :=
  inventory.filter (fun c =>
    match env.extract c with
    | some cd => cd.rank == targetRank && is_card_available locked cd.instance_id
    | none => false)

/-- First loop of CardSelector.select_from_unparsed, bounded by the
attempts counter (MAX_CARD_SELECTION_ATTEMPTS): pop a card, remove it
from the persisted inventory, parse it, and return it when its
desirability is strictly below the target.  Returns the found entry,
the cards left unexamined, the updated cache, and the lookup counter. -/
def selectUnparsedB {α : Type} (env : SelEnv α) (locked : List Nat)
    (maxWanters target : Int) :
    Nat → List α → List (String × Entry) → Nat →
    Option Entry × List α × List (String × Entry) × Nat
  | _, [], parsed, k => (none, [], parsed, k)
  | 0, cards, parsed, k => (none, cards, parsed, k)
  | a + 1, c :: rest, parsed, k =>
    let r := parse_and_cache_card env locked maxWanters c parsed k
    match r.1 with
    | some e =>
      if e.wanters_count < target then (some e, rest, r.2.1, r.2.2)
      else selectUnparsedB env locked maxWanters target a rest r.2.1 r.2.2
    | none => selectUnparsedB env locked maxWanters target a rest r.2.1 r.2.2

/-- Second loop of CardSelector.select_from_unparsed: after the attempts
bound runs out, keep parsing all remaining cards with the same body. -/
def selectUnparsedAll {α : Type} (env : SelEnv α) (locked : List Nat)
    (maxWanters target : Int) :
    List α → List (String × Entry) → Nat →
    Option Entry × List (String × Entry) × Nat
  | [], parsed, k => (none, parsed, k)
  | c :: rest, parsed, k =>
    let r := parse_and_cache_card env locked maxWanters c parsed k
    match r.1 with
    | some e =>
      if e.wanters_count < target then (some e, r.2.1, r.2.2)
      else selectUnparsedAll env locked maxWanters target rest r.2.1 r.2.2
    | none => selectUnparsedAll env locked maxWanters target rest r.2.1 r.2.2

/-- CardSelector.select_from_unparsed: shuffle, run the bounded loop, then
sweep the remainder. -/
def select_from_unparsed {α : Type} (env : SelEnv α) (locked : List Nat)
    (maxWanters : Int) (availableCards : List α) (target : Int)
    (parsed : List (String × Entry)) (k : Nat) :
    Option Entry × List (String × Entry) × Nat :=
  let cards := env.shuffled availableCards
  let r := selectUnparsedB env locked maxWanters target
    MAX_CARD_SELECTION_ATTEMPTS cards parsed k
  match r.1 with
  | some e => (some e, r.2.2.1, r.2.2.2)
  | none => selectUnparsedAll env locked maxWanters target r.2.1 r.2.2.1 r.2.2.2

/-- Eligibility filter shared by the three tiers of
CardSelector.select_from_parsed: goal rank, not locked (a missing
instance_id reads as 0), and not above the desirability ceiling. -/
def eligibleForParsed (locked : List Nat) (maxWanters : Int) (rank : String)
    (e : Entry) : Bool :=
  e.rank == rank && is_card_available locked e.instance_id &&
    !(decide (e.wanters_count > maxWanters))

/-- Tier 1 of select_from_parsed: eligible entries strictly below the
target desirability, in dict-value order. -/
def parsedTierLess (locked : List Nat) (maxWanters : Int) (rank : String)
    (target : Int) (parsed : List (String × Entry)) : List Entry :=
  (parsed.map Prod.snd).filter (fun e =>
    eligibleForParsed locked maxWanters rank e && decide (e.wanters_count < target))

/-- Tier 2 of select_from_parsed: eligible entries exactly at the target. -/
def parsedTierEqual (locked : List Nat) (maxWanters : Int) (rank : String)
    (target : Int) (parsed : List (String × Entry)) : List Entry :=
  (parsed.map Prod.snd).filter (fun e =>
    eligibleForParsed locked maxWanters rank e && decide (e.wanters_count = target))

/-- Tier 3 of select_from_parsed: eligible entries strictly above the
target. -/
def parsedTierClosest (locked : List Nat) (maxWanters : Int) (rank : String)
    (target : Int) (parsed : List (String × Entry)) : List Entry :=
  (parsed.map Prod.snd).filter (fun e =>
    eligibleForParsed locked maxWanters rank e && decide (target < e.wanters_count))

/-- Stable insertion by ascending wanters_count, placing an element after
every element it ties with, as Python's stable list.sort does. -/
def insertByWanters (e : Entry) : List Entry → List Entry
  | [] => [e]
  | x :: xs =>
      if x.wanters_count ≤ e.wanters_count then x :: insertByWanters e xs
      else e :: x :: xs

/-- Stable sort by ascending wanters_count, modelling
suitable_closest.sort(key=wanters_count). -/
def sortByWanters : List Entry → List Entry
  | [] => []
  | e :: xs => insertByWanters e (sortByWanters xs)

/-- CardSelector.select_from_parsed: random choice from the strictly-below
tier, else from the exactly-equal tier, else the head of the
closest-above tier sorted by ascending desirability. -/
def select_from_parsed {α : Type} (env : SelEnv α) (locked : List Nat)
    (maxWanters : Int) (parsed : List (String × Entry)) (rank : String)
    (target : Int) : Option Entry :=
  let less := parsedTierLess locked maxWanters rank target parsed
  let equal := parsedTierEqual locked maxWanters rank target parsed
  let closest := parsedTierClosest locked maxWanters rank target parsed
  if less ≠ [] then some (env.pick less)
  else if equal ≠ [] then some (env.pick equal)
  else
    match sortByWanters closest with
    | [] => none
    | e :: _ => some e

/-- CardSelector.select_best_card: empty-everything short-circuit, then
the unparsed scan (which mutates the cache), then the parsed fallback
on the mutated cache. -/
def select_best_card {α : Type} (env : SelEnv α) (locked : List Nat)
    (maxWanters : Int) (inventory : List α) (parsed : List (String × Entry))
    (targetRank : String) (target : Int) : Option Entry :=
  if inventory.isEmpty && parsed.isEmpty then none
  else
    let available := filter_cards_by_rank env locked inventory targetRank
    if !available.isEmpty then
      let r := select_from_unparsed env locked maxWanters available target parsed 0
      match r.1 with
      | some e => some e
      | none => select_from_parsed env locked maxWanters r.2.1 targetRank target
    else select_from_parsed env locked maxWanters parsed targetRank target

/-- Function select_trade_card of src/card_selector.py: returns none when
the goal rank is missing, and otherwise selects with the trade
manager's locked set. -/
def select_trade_card {α : Type} (env : SelEnv α) (locked : List Nat)
    (maxWanters : Int) (inventory : List α) (parsed : List (String × Entry))
    (boostRank : String) (boostWanters : Int) : Option Entry :=
  if boostRank = "" then none
  else select_best_card env locked maxWanters inventory parsed boostRank boostWanters

theorem mem_listInsert {β : Type} [DecidableEq β] {s : List β} {x y : β}
    (h : x ∈ s) : x ∈ listInsert s y := by
  unfold listInsert
  split <;> simp [h]

theorem mem_listInsert_self {β : Type} [DecidableEq β] (s : List β) (x : β) :
    x ∈ listInsert s x := by
  unfold listInsert
  split <;> simp_all

theorem sent_mono (c : TradeCall) (st : TMState) (p : Nat × Nat)
    (h : p ∈ st.sent_trades) :
    p ∈ ((send_trade_to_owner c.env c.ownerId c.myInstanceId c.hisCardId
      c.dryRun st).2.1).sent_trades := by
  by_cases h0 : c.myInstanceId = 0
  · simpa [send_trade_to_owner, h0] using h
  · by_cases h2 : c.dryRun
    · simpa [send_trade_to_owner, h0, h2] using h
    · by_cases h1 : has_trade_sent st c.ownerId c.hisCardId
      · simpa [send_trade_to_owner, h0, h1, h2] using h
      · cases hf : c.env.findPartner with
        | none => simpa [send_trade_to_owner, h0, h1, h2, hf] using h
        | some v =>
          by_cases hok : c.env.createOk
          · simpa [send_trade_to_owner, h0, h1, h2, hf, hok,
              create_trade_direct_api, mark_trade_sent] using mem_listInsert h
          · simpa [send_trade_to_owner, h0, h1, h2, hf, hok,
              create_trade_direct_api] using h

theorem sent_mono_trace (calls : List TradeCall) (st : TMState) (p : Nat × Nat)
    (h : p ∈ st.sent_trades) : p ∈ (runTradeCalls st calls).sent_trades := by
  induction calls generalizing st with
  | nil => exact h
  | cons c rest ih =>
      exact ih _ (sent_mono c st p h)

theorem sent_after_success (env : TradeOracle) (o m c : Nat) (st : TMState)
    (h : (send_trade_to_owner env o m c false st).1 = true) :
    (o, c) ∈ ((send_trade_to_owner env o m c false st).2.1).sent_trades := by
  by_cases h0 : m = 0
  · simp [send_trade_to_owner, h0] at h
  · by_cases h1 : has_trade_sent st o c
    · simp [send_trade_to_owner, h0, h1] at h
    · cases hf : env.findPartner with
      | none => simp [send_trade_to_owner, h0, h1, hf] at h
      | some v =>
        by_cases hok : env.createOk
        · simpa [send_trade_to_owner, h0, h1, hf, hok,
            create_trade_direct_api, mark_trade_sent] using
            mem_listInsert_self st.sent_trades (o, c)
        · simp [send_trade_to_owner, h0, h1, hf, hok,
            create_trade_direct_api] at h

theorem dedup_short_circuit (env : TradeOracle) (o m c : Nat) (st : TMState)
    (hm : m ≠ 0) (h : (o, c) ∈ st.sent_trades) :
    send_trade_to_owner env o m c false st = (false, st, 0) := by
  unfold send_trade_to_owner
  rw [if_neg hm, if_pos (by simp [has_trade_sent, h])]

/-- C1: at-most-once trade per ledger epoch.  If a non-dry-run
send_trade_to_owner call for the pair (ownerId, hisCardId) succeeds, then
after any further sequence of send_trade_to_owner calls (no
clear_sent_trades between them) every later non-dry-run call for the
same pair returns False, leaves the state unchanged, and performs zero
network operations, short-circuiting on the has_trade_sent check. -/
theorem c1_at_most_once_trade (env env2 : TradeOracle) (o m m2 c : Nat)
    (st : TMState) (mid : List TradeCall) (hm2 : m2 ≠ 0)
    (hsucc : (send_trade_to_owner env o m c false st).1 = true) :
    send_trade_to_owner env2 o m2 c false
        (runTradeCalls (send_trade_to_owner env o m c false st).2.1 mid) =
      (false, runTradeCalls (send_trade_to_owner env o m c false st).2.1 mid, 0) := by
  apply dedup_short_circuit _ _ _ _ _ hm2
  exact sent_mono_trace mid _ _ (sent_after_success env o m c st hsucc)

/-- Witness for C1 at concrete inputs: a successful send to owner 42 for
card 7, followed (with no intervening calls) by a second attempt for the
same pair, which returns False with zero network operations. -/
theorem c1_at_most_once_trade_witness :
    send_trade_to_owner ⟨some 5, true⟩ 42 9 7 false
        (runTradeCalls (send_trade_to_owner ⟨some 5, true⟩ 42 9 7 false
          ⟨[], []⟩).2.1 []) =
      (false, runTradeCalls (send_trade_to_owner ⟨some 5, true⟩ 42 9 7 false
          ⟨[], []⟩).2.1 [], 0) :=
  c1_at_most_once_trade ⟨some 5, true⟩ ⟨some 5, true⟩ 42 9 9 7 ⟨[], []⟩ []
    (by decide) (by decide)

/-- C10: dry-run behaviour of send_trade_to_owner.  With dry_run set and a
non-zero my_instance_id the call returns True unconditionally, performs
zero network operations and leaves the ledger and lock set unchanged;
in particular the has_trade_sent duplicate check is skipped, so this
holds even when the pair is already in the ledger. -/
theorem c10_dry_run_unconditional (env : TradeOracle) (o m c : Nat)
    (st : TMState) (hm : m ≠ 0) :
    send_trade_to_owner env o m c true st = (true, st, 0) := by
  unfold send_trade_to_owner
  rw [if_neg hm]
  simp

/-- Witness for C10 at a concrete input where the pair (42, 7) is already
in the ledger: the dry-run call still returns True with zero network
operations, so the duplicate goes undetected. -/
theorem c10_dry_run_unconditional_witness :
    send_trade_to_owner ⟨some 5, true⟩ 42 9 7 true ⟨[(42, 7)], []⟩ =
      (true, ⟨[(42, 7)], []⟩, 0) :=
  c10_dry_run_unconditional ⟨some 5, true⟩ 42 9 7 ⟨[(42, 7)], []⟩ (by decide)

/-- Every entry of a parsed_inventory respects the desirability ceiling.
Entries freshly written by parse_and_cache_card always do; entries
deserialized from disk need not. -/
def CacheBound (maxWanters : Int) (parsed : List (String × Entry)) : Prop :=
  ∀ kv ∈ parsed, (kv : String × Entry).2.wanters_count ≤ maxWanters

/-! ## Owners processor (src/owners_parser.py, class OwnersProcessor)

The processor is driven by injected collaborators: the page parser
(find_owners_on_page), the card-selection hook (select_card_func), the
trade-dispatch hook (send_trade_func), and the monitor object whose
card_changed flag it polls.  Each is an oracle: pages maps a page number
to the parsed (owners, has_next) pair; flag gives the value of
monitor_obj.card_changed at the k-th read (reads are counted in
ProcState.ticks, so a flag set between two owners is a flag that turns
true at some read index); selectRes and sendRes give the results of the
k-th selection and dispatch calls.  ProcState.dispatched logs the owner
ids passed to send_trade_func.  Sleeps, jitter and last_trade_time only
affect timing, not any value the claims mention, and are not modelled. -/

/-- Class Owner of src/owners_parser.py. -/
structure Owner where
  id : Nat
  name : String
deriving Repr, DecidableEq

/-- Oracles consumed by one process_page_by_page run. -/
structure ProcEnv where
  hasMonitor : Bool
  flag : Nat → Bool
  pages : Nat → List Owner × Bool
  selectRes : Nat → Option Entry
  sendRes : Nat → Bool

/-- Observable counters of a run: flag reads, selection calls, dispatch
calls, and the log of owners dispatched to. -/
structure ProcState where
  ticks : Nat
  selCount : Nat
  sendCount : Nat
  dispatched : List Nat
deriving Repr, DecidableEq

/-- One evaluation of the guard (monitor_obj and monitor_obj.card_changed):
reads the flag (consuming a tick) when a monitor is attached. -/
def readFlag (env : ProcEnv) (st : ProcState) : Bool × ProcState :=
  if env.hasMonitor then (env.flag st.ticks, { st with ticks := st.ticks + 1 })
  else (false, st)

/-- OwnersProcessor.process_owner: re-check the flag, select a card,
re-check the flag again immediately before dispatching, dispatch.
Returns (trade success, should_break, state). -/
def process_owner (env : ProcEnv) (owner : Owner) (st : ProcState) :
    Bool × Bool × ProcState :=
  let r1 := readFlag env st
  if r1.1 then (false, true, r1.2)
  else
    let st1 := r1.2
    let sel := env.selectRes st1.selCount
    let st2 := { st1 with selCount := st1.selCount + 1 }
    match sel with
    | none => (false, false, st2)
    | some _ =>
      let r2 := readFlag env st2
      if r2.1 then (false, true, r2.2)
      else
        let st3 := r2.2
        let ok := env.sendRes st3.sendCount
        let st4 :=
          { st3 with sendCount := st3.sendCount + 1,
                     dispatched := st3.dispatched ++ [owner.id] }
        (ok, false, st4)

/-- The per-page for-loop of process_page_by_page: run process_owner on
each owner, stopping at the first should_break.  Returns whether the
page was interrupted along with the state.  (The success counter only
feeds a log line and is not returned by the source either.) -/
def processOwnersList (env : ProcEnv) : List Owner → ProcState → Bool × ProcState
  | [], st => (false, st)
  | o :: rest, st =>
    let r := process_owner env o st
    if r.2.1 then (true, r.2.2)
    else processOwnersList env rest r.2.2

/-- The body of one while-iteration of process_page_by_page after the
top-of-loop flag check: process the page's owners when nonempty; left
means return-now with the pre-page total (interrupted), right means
continue with the page's owner count added. -/
def processPageStep (env : ProcEnv) (owners : List Owner) (total : Nat)
    (st : ProcState) : (Nat × ProcState) ⊕ (Nat × ProcState) :=
  if owners.isEmpty then Sum.inr (total, st)
  else
    let r := processOwnersList env owners st
    if r.1 then Sum.inl (total, r.2)
    else Sum.inr (total + owners.length, r.2)

/-- OwnersProcessor.process_page_by_page, with fuel for the unbounded
while-loop (none = fuel exhausted).  Returns the processed-owner count
and the final state. -/
def process_page_by_page (env : ProcEnv) :
    Nat → Nat → Nat → ProcState → Option (Nat × ProcState)
  | 0, _, _, _ => none
  | fuel + 1, page, total, st =>
    let r1 := readFlag env st
    if r1.1 then some (total, r1.2)
    else
      match processPageStep env (env.pages page).1 total r1.2 with
      | Sum.inl res => some res
      | Sum.inr (total2, st2) =>
        if !(env.pages page).2 then some (total2, st2)
        else
          let r3 := readFlag env st2
          if r3.1 then some (total2, r3.2)
          else process_page_by_page env fuel (page + 1) total2 r3.2

/-! ## Rate limiter -/

/-- Modelled from the spec: the rate_limiter module (get_rate_limiter and
its wait_and_record / pause_for_429 methods) is imported by trade.py and
main.py but is not under src/; only its configuration constants
RATE_LIMIT_PER_MINUTE and RATE_LIMIT_WINDOW are (config.py).  Per the
spec it keeps an append-only window of recorded call timestamps, pruned
on read.  The state here is the current clock (time only moves forward;
a blocked caller advances it) and the full log of recorded call times. -/
structure RLState where
  clock : Nat
  log : List Nat
deriving Repr, DecidableEq

/-- Modelled from the spec: the calls recorded within the trailing window
as seen at time now, i.e. the timestamps t with now < t + window. -/
def windowCalls (now : Nat) (log : List Nat) : List Nat :=
  log.filter (fun t => decide (now < t + RATE_LIMIT_WINDOW))

/-- Modelled from the spec: the time at which a call arriving at raw time
req is actually recorded.  If the count of calls in the trailing window
is at or above the ceiling, the caller blocks until the oldest recorded
call falls outside the window (oldest + window); otherwise it records
immediately. -/
def recordTime (st : RLState) (req : Nat) : Nat :=
  if RATE_LIMIT_PER_MINUTE ≤ (windowCalls (max st.clock req) st.log).length
  then (windowCalls (max st.clock req) st.log).headD 0 + RATE_LIMIT_WINDOW
  else max st.clock req

/-- Modelled from the spec: record_and_maybe_wait — block as needed, then
record the call and advance the clock. -/
def wait_and_record (st : RLState) (req : Nat) : RLState :=
  { clock := recordTime st req, log := st.log ++ [recordTime st req] }

/-- Run the limiter over a list of raw request arrival times. -/
def runLimiter (reqs : List Nat) : RLState :=
  reqs.foldl wait_and_record ⟨0, []⟩

/-- Membership of time t in the 60-second window ending at m, i.e. the
half-open real-time interval (m - window, m]. -/
def inWindow (m t : Nat) : Bool :=
  decide (m < t + RATE_LIMIT_WINDOW) && decide (t ≤ m)

/-- Limiter invariant: every recorded time is at most the clock, and no
60-second window holds more than the ceiling of recorded calls. -/
def RLInv (st : RLState) : Prop :=
  (∀ t ∈ st.log, t ≤ st.clock) ∧
  ∀ m : Nat, (st.log.filter (inWindow m)).length ≤ RATE_LIMIT_PER_MINUTE

/-! ## Recovery manager (src/main.py, class RecoveryManager) -/

/-- Constant RECOVERY_RETRY_INTERVAL of src/main.py (seconds). -/
def RECOVERY_RETRY_INTERVAL : Nat := 300

/-- Constant MAX_RECOVERY_ATTEMPTS of src/main.py (0 = unbounded). -/
def MAX_RECOVERY_ATTEMPTS : Nat := 0

/-- Pattern is a leading segment of the text. -/
def charsStart : List Char → List Char → Bool
  | [], _ => true
  | _ :: _, [] => false
  | p :: ps, c :: cs => p == c && charsStart ps cs

/-- Pattern occurs contiguously somewhere in the text, modelling the
Python substring operator. -/
def charsOccur : List Char → List Char → Bool
  | pat, [] => charsStart pat []
  | pat, c :: cs => charsStart pat (c :: cs) || charsOccur pat cs

/-- Substring test on strings. -/
def strContains (s pat : String) : Bool :=
  charsOccur pat.toList s.toList

/-- Python str.lower, character by character. -/
def lowerStr (s : String) : String :=
  String.mk (s.toList.map Char.toLower)

/-- A raised Python exception as is_recoverable_error observes it: its
str() rendering and, when an attached response attribute exists, whether
that object is truthy together with its status code. -/
structure PyError where
  msg : String
  response : Option (Bool × Nat)
deriving Repr, DecidableEq

/-- The network_errors substring list of RecoveryManager.is_recoverable_error. -/
def network_errors : List String :=
  ["connection", "timeout", "network", "unreachable", "refused",
   "reset by peer", "temporary failure", "name resolution"]

/-- The server_errors substring list of RecoveryManager.is_recoverable_error. -/
def server_errors : List String :=
  ["500", "502", "503", "504"]

/-- RecoveryManager.is_recoverable_error of src/main.py: lowercase the
message, look for network-failure substrings, then 5xx code substrings,
then a status of at least 500 on a truthy attached response. -/
def is_recoverable_error (e : PyError) : Bool :=
  let errorStr := lowerStr e.msg
  if network_errors.any (fun sub => strContains errorStr sub) then true
  else if server_errors.any (fun sub => strContains errorStr sub) then true
  else
    match e.response with
    | some (truthy, status) => if truthy then decide (500 ≤ status) else false
    | none => false

/-- RecoveryManager.should_retry: always retry when the ceiling is 0. -/
def should_retry (maxAttempts attemptCount : Nat) : Bool :=
  if maxAttempts = 0 then true else decide (attemptCount < maxAttempts)

/-- Observable side effects of run_with_recovery: resource cleanup and the
cooldown sleep (total seconds) of wait_before_retry. -/
inductive REv
  | cleanup
  | cooldown (secs : Nat)
deriving Repr, DecidableEq

/-- Outcome of one supervised MangaBuffApp.run() attempt: a normal return
code, a raised exception, or a KeyboardInterrupt. -/
inductive RunOutcome
  | ok (code : Int)
  | err (e : PyError)
  | interrupt
deriving Repr, DecidableEq

/-- MangaBuffApp.run_with_recovery of src/main.py.  The oracle gives the
outcome of the attempt made at each value of the attempt counter; fuel
bounds the unbounded while-loop.  Returns the exit code, the final
attempt counter, and the event trace. -/
def run_with_recovery (outcomes : Nat → RunOutcome) (maxAttempts : Nat) :
    Nat → Nat → Option (Int × Nat × List REv)
  | 0, _ => none
  | fuel + 1, attempts =>
    if !(should_retry maxAttempts attempts) then some (1, attempts, [])
    else
      match outcomes attempts with
      | RunOutcome.ok r => some (r, 0, [])
      | RunOutcome.interrupt => some (130, attempts, [REv.cleanup])
      | RunOutcome.err e =>
        if !(is_recoverable_error e) then some (1, attempts, [REv.cleanup])
        else
          match run_with_recovery outcomes maxAttempts fuel (attempts + 1) with
          | none => none
          | some (code, att, evs) =>
            some (code, att,
              [REv.cleanup, REv.cooldown RECOVERY_RETRY_INTERVAL] ++ evs)

/-! ## Daily statistics (src/daily_stats.py, class DailyStatsManager) -/

/-- The stats dict assembled by fetch_stats_from_page. -/
structure DailyStats where
  donations_used : Int
  donations_max : Int
  replacements_used : Int
  replacements_max : Int
  donations_left : Int
  replacements_left : Int
deriving Repr, DecidableEq

/-- Outcome of the markup extraction on a successfully fetched boost page:
the (used, maximum) pairs parsed for replacements and donations, when
the page contained them. -/
structure PageParse where
  replacements : Option (Int × Int)
  donations : Option (Int × Int)
deriving Repr, DecidableEq

/-- Body of fetch_stats_from_page on a 200 response: parsed values with
config defaults for whatever failed to parse, and derived remainders. -/
def statsFromParse (p : PageParse) : DailyStats :=
  let rep :=
    match p.replacements with
    | some x => x
    | none => (0, MAX_DAILY_REPLACEMENTS)
  let don :=
    match p.donations with
    | some x => x
    | none => (0, MAX_DAILY_DONATIONS)
  { donations_used := don.1, donations_max := don.2,
    replacements_used := rep.1, replacements_max := rep.2,
    donations_left := don.2 - don.1,
    replacements_left := rep.2 - rep.1 }

/-- The all-defaults stats get_stats falls back to when the remote fetch
fails: config constants, not any locally accumulated counter. -/
def defaultStats : DailyStats :=
  { donations_used := 0, donations_max := MAX_DAILY_DONATIONS,
    replacements_used := 0, replacements_max := MAX_DAILY_REPLACEMENTS,
    donations_left := MAX_DAILY_DONATIONS,
    replacements_left := MAX_DAILY_REPLACEMENTS }

/-- DailyStatsManager.fetch_stats_from_page: the fetch oracle is none on a
network error or non-200 status, some parse otherwise.  Returns the
result and the updated cache (_cached_stats is only written on
success). -/
def fetch_stats_from_page (fetch : Option PageParse)
    (cached : Option DailyStats) : Option DailyStats × Option DailyStats :=
  match fetch with
  | none => (none, cached)
  | some p => (some (statsFromParse p), some (statsFromParse p))

/-- DailyStatsManager.get_stats.  Returns the stats, the updated cache and
the number of remote fetches performed. -/
def get_stats (fetch : Option PageParse) (forceRefresh : Bool)
    (cached : Option DailyStats) : DailyStats × Option DailyStats × Nat :=
  if forceRefresh || cached.isNone then
    match fetch_stats_from_page fetch cached with
    | (none, c2) => (defaultStats, c2, 1)
    | (some s, c2) => (s, c2, 1)
  else (cached.getD defaultStats, cached, 0)

/-- The stats every decision made with force_refresh is derived from: a
pure function of the remote fetch outcome. -/
def statsOfFetch (fetch : Option PageParse) : DailyStats :=
  match fetch with
  | none => defaultStats
  | some p => statsFromParse p

/-- DailyStatsManager.can_donate (force_refresh defaults to True at every
call site).  Returns the decision, the updated cache, and the number of
remote fetches performed. -/
def can_donate (fetch : Option PageParse) (forceRefresh : Bool)
    (cached : Option DailyStats) : Bool × Option DailyStats × Nat :=
  let r := get_stats fetch forceRefresh cached
  (decide (r.1.donations_left > 0), r.2.1, r.2.2)

/-- DailyStatsManager.can_replace, same shape as can_donate. -/
def can_replace (fetch : Option PageParse) (forceRefresh : Bool)
    (cached : Option DailyStats) : Bool × Option DailyStats × Nat :=
  let r := get_stats fetch forceRefresh cached
  (decide (r.1.replacements_left > 0), r.2.1, r.2.2)

/-! ## Main processing loop (src/main.py, MangaBuffApp.run_processing_mode)

One iteration of the while-loop, on its normal (non-raising) paths, with
every collaborator outcome an oracle field.  The ledger-visible effects
are: the auto-replacement branch (goal replaced, reset_state), the
owners-processing phase (send_trade_to_owner marks pairs and locks
cards, modelled as appended lists), the restart branch on
monitor.card_changed (goal replaced, reset_state), the
boost-happened branch (goal replaced, reset_state), and the
timeout branch (cancel_all_sent_trades, clearing only on success and
skipped in dry-run). -/

/-- Trade-manager state plus the processor's last-trade timestamp. -/
structure AppTM where
  tm : TMState
  lastTradeTime : Nat
deriving Repr, DecidableEq

/-- Modelled from the spec: OwnersProcessor.reset_state() is called by
src/main.py but the method body is not under src/ (the OwnersProcessor
variant in src/owners_parser.py predates it); per the spec it clears the
Trade Manager's ledger and the last-trade timestamp. -/
def reset_state (st : AppTM) : AppTM :=
  { tm := clear_sent_trades st.tm, lastTradeTime := 0 }

/-- TradeManager.cancel_all_sent_trades of src/trade.py: a successful
rejectAll call clears the ledger (and unlocks all cards); any failure
leaves it untouched. -/
def cancel_all_sent_trades (ok : Bool) (st : TMState) : Bool × TMState :=
  if ok then (true, clear_sent_trades st) else (false, st)

/-- Ledger-relevant events of one main-loop iteration. -/
inductive MEv
  | goalReplaced
  | reset
  | cancelAttempt
  | cleared
deriving Repr, DecidableEq

/-- Collaborator outcomes consumed by one iteration of
run_processing_mode. -/
structure MainEnv where
  needsReplacement : Bool
  replacementOk : Bool
  monitorOn : Bool
  monitorRunning : Bool
  cardChangedAtRestart : Bool
  totalPos : Bool
  boostHappened : Bool
  dryRun : Bool
  cancelOk : Bool
  addedPairs : List (Nat × Nat)
  addedLocks : List Nat

/-- One iteration of MangaBuffApp.run_processing_mode (normal paths).
Returns the state, the event trace, and whether the loop continues. -/
def run_processing_iteration (env : MainEnv) (st : AppTM) :
    AppTM × List MEv × Bool :=
  let r1 :=
    if env.needsReplacement then
      if env.replacementOk then
        (reset_state st, [MEv.goalReplaced, MEv.reset, MEv.cleared])
      else (st, ([] : List MEv))
    else (st, [])
  let st1 := r1.1
  let st2 : AppTM :=
    { st1 with
        tm := { sent_trades := st1.tm.sent_trades ++ env.addedPairs,
                locked_cards := st1.tm.locked_cards ++ env.addedLocks } }
  if env.monitorOn && env.monitorRunning && env.cardChangedAtRestart then
    (reset_state st2, r1.2 ++ [MEv.goalReplaced, MEv.reset, MEv.cleared], true)
  else if env.monitorOn && env.monitorRunning && env.totalPos then
    if env.boostHappened then
      (reset_state st2, r1.2 ++ [MEv.goalReplaced, MEv.reset, MEv.cleared],
        true)
    else if !env.dryRun then
      let rc := cancel_all_sent_trades env.cancelOk st2.tm
      if rc.1 then
        ({ st2 with tm := rc.2 }, r1.2 ++ [MEv.cancelAttempt, MEv.cleared],
          true)
      else ({ st2 with tm := rc.2 }, r1.2 ++ [MEv.cancelAttempt], true)
    else (st2, r1.2, true)
  else (st2, r1.2, false)

/-! ## Card selector lemmas -/

theorem headD_mem (l : List Entry) (h : l ≠ []) : l.headD entryDefault ∈ l := by
  cases l with
  | nil => exact absurd rfl h
  | cons a l => simp [List.headD]

theorem parse_result_unlocked {α : Type} (env : SelEnv α) (locked : List Nat)
    (maxWanters : Int) (card : α) (parsed : List (String × Entry)) (k : Nat)
    {e : Entry}
    (h : (parse_and_cache_card env locked maxWanters card parsed k).1 = some e) :
    e.instance_id ∉ locked := by
  unfold parse_and_cache_card at h
  split at h
  · simp at h
  · rename_i cd _
    split at h
    · simp at h
    · rename_i hnav
      have hav : cd.instance_id ∉ locked := by
        simpa [is_card_available] using hnav
      dsimp only at h
      split at h
      · rename_i e0 _
        try dsimp only at h
        obtain rfl := Option.some_injective _ h
        simpa using hav
      · try dsimp only at h
        split at h
        · simp at h
        · split at h
          · simp at h
          · try dsimp only at h
            obtain rfl := Option.some_injective _ h
            simpa using hav

theorem selB_result_unlocked {α : Type} (env : SelEnv α) (locked : List Nat)
    (maxWanters target : Int) (a : Nat) (cards : List α)
    (parsed : List (String × Entry)) (k : Nat) {e : Entry}
    (h : (selectUnparsedB env locked maxWanters target a cards parsed k).1 =
      some e) : e.instance_id ∉ locked := by
  induction a generalizing cards parsed k with
  | zero =>
    cases cards with
    | nil => simp [selectUnparsedB] at h
    | cons c rest => simp [selectUnparsedB] at h
  | succ a ih =>
    cases cards with
    | nil => simp [selectUnparsedB] at h
    | cons c rest =>
      rw [selectUnparsedB] at h
      try dsimp only at h
      split at h
      · rename_i e0 hp
        split at h
        · try dsimp only at h
          obtain rfl : e0 = e := Option.some_injective _ h
          exact parse_result_unlocked env locked maxWanters c parsed k hp
        · exact ih _ _ _ h
      · exact ih _ _ _ h

theorem selAll_result_unlocked {α : Type} (env : SelEnv α) (locked : List Nat)
    (maxWanters target : Int) (cards : List α)
    (parsed : List (String × Entry)) (k : Nat) {e : Entry}
    (h : (selectUnparsedAll env locked maxWanters target cards parsed k).1 =
      some e) : e.instance_id ∉ locked := by
  induction cards generalizing parsed k with
  | nil => simp [selectUnparsedAll] at h
  | cons c rest ih =>
    rw [selectUnparsedAll] at h
    try dsimp only at h
    split at h
    · rename_i e0 hp
      split at h
      · try dsimp only at h
        obtain rfl : e0 = e := Option.some_injective _ h
        exact parse_result_unlocked env locked maxWanters c parsed k hp
      · exact ih _ _ h
    · exact ih _ _ h

theorem select_from_unparsed_unlocked {α : Type} (env : SelEnv α)
    (locked : List Nat) (maxWanters : Int) (availableCards : List α)
    (target : Int) (parsed : List (String × Entry)) (k : Nat) {e : Entry}
    (h : (select_from_unparsed env locked maxWanters availableCards target
      parsed k).1 = some e) : e.instance_id ∉ locked := by
  unfold select_from_unparsed at h
  dsimp only at h
  split at h
  · rename_i e0 hb
    try dsimp only at h
    obtain rfl : e0 = e := Option.some_injective _ h
    exact selB_result_unlocked env locked maxWanters target _ _ _ _ hb
  · rename_i hb
    exact selAll_result_unlocked env locked maxWanters target _ _ _ h

theorem eligible_facts {locked : List Nat} {maxWanters : Int} {rank : String}
    {e : Entry} (h : eligibleForParsed locked maxWanters rank e = true) :
    e.instance_id ∉ locked ∧ e.wanters_count ≤ maxWanters := by
  simp only [eligibleForParsed, is_card_available, Bool.and_eq_true,
    Bool.not_eq_true', decide_eq_true_eq, decide_eq_false_iff_not, not_lt] at h
  exact ⟨h.1.2, h.2⟩

theorem mem_insertByWanters {x e : Entry} {l : List Entry}
    (h : x ∈ insertByWanters e l) : x = e ∨ x ∈ l := by
  induction l with
  | nil => simpa [insertByWanters] using h
  | cons a l ih =>
    unfold insertByWanters at h
    split at h
    · rcases List.mem_cons.mp h with h1 | h1
      · exact Or.inr (by simp [h1])
      · rcases ih h1 with h2 | h2
        · exact Or.inl h2
        · exact Or.inr (List.mem_cons_of_mem _ h2)
    · rcases List.mem_cons.mp h with h1 | h1
      · exact Or.inl h1
      · exact Or.inr h1

theorem mem_sortByWanters {x : Entry} {l : List Entry}
    (h : x ∈ sortByWanters l) : x ∈ l := by
  induction l with
  | nil => simpa [sortByWanters] using h
  | cons a l ih =>
    unfold sortByWanters at h
    rcases mem_insertByWanters h with h1 | h1
    · simp [h1]
    · exact List.mem_cons_of_mem _ (ih h1)

theorem length_insertByWanters (e : Entry) (l : List Entry) :
    (insertByWanters e l).length = l.length + 1 := by
  induction l with
  | nil => rfl
  | cons a l ih =>
    unfold insertByWanters
    split <;> simp [ih]

theorem length_sortByWanters (l : List Entry) :
    (sortByWanters l).length = l.length := by
  induction l with
  | nil => rfl
  | cons a l ih =>
    unfold sortByWanters
    rw [length_insertByWanters, ih, List.length_cons]

theorem sortByWanters_nil {l : List Entry} (h : sortByWanters l = []) :
    l = [] := by
  have := length_sortByWanters l
  rw [h] at this
  exact List.length_eq_zero.mp this.symm

theorem sortByWanters_head_min {l : List Entry} {e : Entry} {rest : List Entry}
    (h : sortByWanters l = e :: rest) :
    ∀ x ∈ l, e.wanters_count ≤ x.wanters_count := by
  induction l generalizing e rest with
  | nil => simp [sortByWanters] at h
  | cons a l ih =>
    unfold sortByWanters at h
    cases hs : sortByWanters l with
    | nil =>
      have hl : l = [] := sortByWanters_nil hs
      rw [hs] at h
      simp only [insertByWanters] at h
      obtain ⟨rfl, _⟩ := List.cons.inj h
      intro x hx
      rw [hl] at hx
      simp at hx
      simp [hx]
    | cons b r =>
      rw [hs] at h
      unfold insertByWanters at h
      split at h
      · rename_i hle
        obtain ⟨rfl, h2⟩ := List.cons.inj h
        intro x hx
        rcases List.mem_cons.mp hx with rfl | hx2
        · exact hle
        · exact ih hs x hx2
      · rename_i hgt
        obtain ⟨rfl, _⟩ := List.cons.inj h
        intro x hx
        rcases List.mem_cons.mp hx with rfl | hx2
        · exact le_refl _
        · exact le_trans (le_of_not_le hgt) (ih hs x hx2)

theorem select_from_parsed_cases {α : Type} (env : SelEnv α)
    (locked : List Nat) (maxWanters : Int) (parsed : List (String × Entry))
    (rank : String) (target : Int) {e : Entry}
    (hpick : ∀ l : List Entry, l ≠ [] → env.pick l ∈ l)
    (h : select_from_parsed env locked maxWanters parsed rank target = some e) :
    e ∈ parsedTierLess locked maxWanters rank target parsed ∨
    e ∈ parsedTierEqual locked maxWanters rank target parsed ∨
    e ∈ parsedTierClosest locked maxWanters rank target parsed := by
  unfold select_from_parsed at h
  by_cases h1 : parsedTierLess locked maxWanters rank target parsed = []
  · by_cases h2 : parsedTierEqual locked maxWanters rank target parsed = []
    · rw [if_neg (by simp [h1]), if_neg (by simp [h2])] at h
      cases hs : sortByWanters
          (parsedTierClosest locked maxWanters rank target parsed) with
      | nil => rw [hs] at h; simp at h
      | cons b r =>
        rw [hs] at h
        obtain rfl : b = e := Option.some_injective _ h
        exact Or.inr (Or.inr (mem_sortByWanters (by rw [hs]; simp)))
    · rw [if_neg (by simp [h1]), if_pos (by simp [h2])] at h
      obtain rfl := Option.some_injective _ h
      exact Or.inr (Or.inl (hpick _ h2))
  · rw [if_pos (by simp [h1])] at h
    obtain rfl := Option.some_injective _ h
    exact Or.inl (hpick _ h1)

theorem select_from_parsed_unlocked {α : Type} (env : SelEnv α)
    (locked : List Nat) (maxWanters : Int) (parsed : List (String × Entry))
    (rank : String) (target : Int) {e : Entry}
    (hpick : ∀ l : List Entry, l ≠ [] → env.pick l ∈ l)
    (h : select_from_parsed env locked maxWanters parsed rank target = some e) :
    e.instance_id ∉ locked := by
  rcases select_from_parsed_cases env locked maxWanters parsed rank target
    hpick h with hm | hm | hm <;>
  · have hp := (List.mem_filter.mp hm).2
    simp only [Bool.and_eq_true] at hp
    exact (eligible_facts hp.1).1

/-- C2: lock consistency.  Any card returned by the selector, along any
selection path (unparsed scan, valid cache hit, or parsed fallback), has
an instance_id outside the locked set the selector was built with; and
after clear_sent_trades no instance remains locked. -/
theorem c2_lock_consistency {α : Type} (env : SelEnv α) (locked : List Nat)
    (maxWanters : Int) (inventory : List α) (parsed : List (String × Entry))
    (rank : String) (target : Int)
    (hpick : ∀ l : List Entry, l ≠ [] → env.pick l ∈ l) :
    (∀ e, select_best_card env locked maxWanters inventory parsed rank target =
      some e → e.instance_id ∉ locked) ∧
    ∀ st : TMState, (clear_sent_trades st).locked_cards = [] := by
  constructor
  · intro e h
    unfold select_best_card at h
    split at h
    · simp at h
    · by_cases hav : (filter_cards_by_rank env locked inventory rank).isEmpty
      · rw [if_neg (by simp [hav])] at h
        exact select_from_parsed_unlocked env locked maxWanters parsed rank
          target hpick h
      · rw [if_pos (by simp [hav])] at h
        simp only at h
        cases hu : (select_from_unparsed env locked maxWanters
            (filter_cards_by_rank env locked inventory rank) target parsed 0).1 with
        | some e0 =>
          rw [hu] at h
          obtain rfl : e0 = e := Option.some_injective _ h
          exact select_from_unparsed_unlocked env locked maxWanters _ _ _ _ hu
        | none =>
          rw [hu] at h
          exact select_from_parsed_unlocked env locked maxWanters _ rank
            target hpick h
  · intro st
    rfl

/-- Witness for C2 at concrete inputs: with instance 101 locked, selecting
from a cache holding a locked rank-B entry and an unlocked one returns
the unlocked entry, whose instance 102 is indeed outside the locked set;
and clearing a nonempty trade-manager state leaves no locked card. -/
theorem c2_lock_consistency_witness :
    (102 : Nat) ∉ [(101 : Nat)] ∧
    (clear_sent_trades ⟨[(1, 2)], [3]⟩).locked_cards = [] := by
  constructor
  · exact (c2_lock_consistency
      (⟨some, fun _ => true, fun _ => -1, fun l => l.headD entryDefault, id,
        "", 0⟩ : SelEnv CardData)
      [101] 10 [] [("1", ⟨1, "a", "B", 3, 0, "", 101⟩),
        ("2", ⟨2, "b", "B", 3, 0, "", 102⟩)] "B" 5 headD_mem).1
      ⟨2, "b", "B", 3, 0, "", 102⟩ (by decide)
  · exact (c2_lock_consistency
      (⟨some, fun _ => true, fun _ => -1, fun l => l.headD entryDefault, id,
        "", 0⟩ : SelEnv CardData)
      [101] 10 [] [] "B" 5 headD_mem).2 ⟨[(1, 2)], [3]⟩

theorem lookupA_bound {maxWanters : Int} {parsed : List (String × Entry)}
    {key : String} {e : Entry} (hb : CacheBound maxWanters parsed)
    (h : lookupA parsed key = some e) : e.wanters_count ≤ maxWanters := by
  induction parsed with
  | nil => simp [lookupA] at h
  | cons kv rest ih =>
    rw [show kv = (kv.1, kv.2) from rfl, lookupA] at h
    split at h
    · obtain rfl := Option.some_injective _ h
      exact hb kv (by simp)
    · exact ih (fun p hp => hb p (List.mem_cons_of_mem _ hp)) h

theorem updateA_bound {maxWanters : Int} {parsed : List (String × Entry)}
    {key : String} {e : Entry} (hb : CacheBound maxWanters parsed)
    (he : e.wanters_count ≤ maxWanters) :
    CacheBound maxWanters (updateA parsed key e) := by
  induction parsed with
  | nil =>
    intro p hp
    simp [updateA] at hp
    simp [hp, he]
  | cons kv rest ih =>
    intro p hp
    rw [show kv = (kv.1, kv.2) from rfl, updateA] at hp
    split at hp
    · rcases List.mem_cons.mp hp with h1 | hp2
      · simp [h1, he]
      · exact hb p (List.mem_cons_of_mem _ hp2)
    · rcases List.mem_cons.mp hp with h1 | hp2
      · simpa [h1] using hb kv (by simp)
      · exact ih (fun q hq => hb q (List.mem_cons_of_mem _ hq)) p hp2

theorem parse_result_bound {α : Type} (env : SelEnv α) (locked : List Nat)
    (maxWanters : Int) (card : α) (parsed : List (String × Entry)) (k : Nat)
    {e : Entry} (hb : CacheBound maxWanters parsed)
    (h : (parse_and_cache_card env locked maxWanters card parsed k).1 = some e) :
    e.wanters_count ≤ maxWanters := by
  unfold parse_and_cache_card at h
  split at h
  · simp at h
  · rename_i cd _
    split at h
    · simp at h
    · dsimp only at h
      split at h
      · rename_i e0 heq
        try dsimp only at h
        obtain rfl := Option.some_injective _ h
        cases hlk : lookupA parsed (toString cd.card_id) with
        | none => rw [hlk] at heq; simp at heq
        | some e1 =>
          rw [hlk] at heq
          try dsimp only at heq
          split at heq
          · obtain rfl := Option.some_injective _ heq
            simpa using lookupA_bound hb hlk
          · simp at heq
      · try dsimp only at h
        split at h
        · simp at h
        · split at h
          · simp at h
          · rename_i hw2
            try dsimp only at h
            obtain rfl := Option.some_injective _ h
            simpa using le_of_not_lt hw2

theorem parse_preserves_bound {α : Type} (env : SelEnv α) (locked : List Nat)
    (maxWanters : Int) (card : α) (parsed : List (String × Entry)) (k : Nat)
    (hb : CacheBound maxWanters parsed) :
    CacheBound maxWanters
      (parse_and_cache_card env locked maxWanters card parsed k).2.1 := by
  unfold parse_and_cache_card
  split
  · exact hb
  · rename_i cd _
    split
    · exact hb
    · dsimp only
      split
      · rename_i e0 heq
        cases hlk : lookupA parsed (toString cd.card_id) with
        | none => rw [hlk] at heq; simp at heq
        | some e1 =>
          rw [hlk] at heq
          try dsimp only at heq
          split at heq
          · obtain rfl := Option.some_injective _ heq
            exact updateA_bound hb (by simpa using lookupA_bound hb hlk)
          · simp at heq
      · try dsimp only
        split
        · exact hb
        · split
          · exact hb
          · rename_i hw2
            exact updateA_bound hb (by simpa using le_of_not_lt hw2)

theorem selB_result_bound {α : Type} (env : SelEnv α) (locked : List Nat)
    (maxWanters target : Int) (a : Nat) (cards : List α)
    (parsed : List (String × Entry)) (k : Nat) {e : Entry}
    (hb : CacheBound maxWanters parsed)
    (h : (selectUnparsedB env locked maxWanters target a cards parsed k).1 =
      some e) : e.wanters_count ≤ maxWanters := by
  induction a generalizing cards parsed k with
  | zero =>
    cases cards with
    | nil => simp [selectUnparsedB] at h
    | cons c rest => simp [selectUnparsedB] at h
  | succ a ih =>
    cases cards with
    | nil => simp [selectUnparsedB] at h
    | cons c rest =>
      rw [selectUnparsedB] at h
      try dsimp only at h
      split at h
      · rename_i e0 hp
        split at h
        · try dsimp only at h
          obtain rfl : e0 = e := Option.some_injective _ h
          exact parse_result_bound env locked maxWanters c parsed k hb hp
        · exact ih _ _ _ (parse_preserves_bound env locked maxWanters c parsed k hb) h
      · exact ih _ _ _ (parse_preserves_bound env locked maxWanters c parsed k hb) h

theorem selB_preserves_bound {α : Type} (env : SelEnv α) (locked : List Nat)
    (maxWanters target : Int) (a : Nat) (cards : List α)
    (parsed : List (String × Entry)) (k : Nat)
    (hb : CacheBound maxWanters parsed) :
    CacheBound maxWanters
      (selectUnparsedB env locked maxWanters target a cards parsed k).2.2.1 := by
  induction a generalizing cards parsed k with
  | zero =>
    cases cards with
    | nil => simpa [selectUnparsedB] using hb
    | cons c rest => simpa [selectUnparsedB] using hb
  | succ a ih =>
    cases cards with
    | nil => simpa [selectUnparsedB] using hb
    | cons c rest =>
      rw [selectUnparsedB]
      try dsimp only
      split
      · split
        · try dsimp only
          exact parse_preserves_bound env locked maxWanters c parsed k hb
        · exact ih _ _ _ (parse_preserves_bound env locked maxWanters c parsed k hb)
      · exact ih _ _ _ (parse_preserves_bound env locked maxWanters c parsed k hb)

theorem selAll_result_bound {α : Type} (env : SelEnv α) (locked : List Nat)
    (maxWanters target : Int) (cards : List α)
    (parsed : List (String × Entry)) (k : Nat) {e : Entry}
    (hb : CacheBound maxWanters parsed)
    (h : (selectUnparsedAll env locked maxWanters target cards parsed k).1 =
      some e) : e.wanters_count ≤ maxWanters := by
  induction cards generalizing parsed k with
  | nil => simp [selectUnparsedAll] at h
  | cons c rest ih =>
    rw [selectUnparsedAll] at h
    try dsimp only at h
    split at h
    · rename_i e0 hp
      split at h
      · try dsimp only at h
        obtain rfl : e0 = e := Option.some_injective _ h
        exact parse_result_bound env locked maxWanters c parsed k hb hp
      · exact ih _ _ (parse_preserves_bound env locked maxWanters c parsed k hb) h
    · exact ih _ _ (parse_preserves_bound env locked maxWanters c parsed k hb) h

theorem select_from_unparsed_bound {α : Type} (env : SelEnv α)
    (locked : List Nat) (maxWanters : Int) (availableCards : List α)
    (target : Int) (parsed : List (String × Entry)) (k : Nat) {e : Entry}
    (hb : CacheBound maxWanters parsed)
    (h : (select_from_unparsed env locked maxWanters availableCards target
      parsed k).1 = some e) : e.wanters_count ≤ maxWanters := by
  unfold select_from_unparsed at h
  dsimp only at h
  split at h
  · rename_i e0 hbx
    try dsimp only at h
    obtain rfl : e0 = e := Option.some_injective _ h
    exact selB_result_bound env locked maxWanters target _ _ _ _ hb hbx
  · exact selAll_result_bound env locked maxWanters target _ _ _
      (selB_preserves_bound env locked maxWanters target _ _ _ _ hb) h

theorem select_from_parsed_bound {α : Type} (env : SelEnv α)
    (locked : List Nat) (maxWanters : Int) (parsed : List (String × Entry))
    (rank : String) (target : Int) {e : Entry}
    (hpick : ∀ l : List Entry, l ≠ [] → env.pick l ∈ l)
    (h : select_from_parsed env locked maxWanters parsed rank target = some e) :
    e.wanters_count ≤ maxWanters := by
  rcases select_from_parsed_cases env locked maxWanters parsed rank target
    hpick h with hm | hm | hm <;>
  · have hp := (List.mem_filter.mp hm).2
    simp only [Bool.and_eq_true] at hp
    exact (eligible_facts hp.1).2

/-- C5 counterexample: the desirability ceiling is not enforced on the
cache-hit path of the unparsed scan.  With ceiling 10, a rank-B
inventory card whose card_id has a still-valid cache entry of
desirability 11, and a goal desirability of 13, select_best_card returns
that cached entry even though its desirability exceeds the ceiling. -/
theorem c5_counterexample :
    select_best_card (⟨some, fun _ => true, fun _ => -1,
        fun l => l.headD entryDefault, id, "", 0⟩ : SelEnv CardData)
      [] 10 [⟨1, "x", "B", 11⟩] [("1", ⟨1, "x", "B", 11, 0, "t", 99⟩)] "B" 13 =
      some ⟨1, "x", "B", 11, 0, "t", 11⟩ ∧
    (10 : Int) < (⟨1, "x", "B", 11, 0, "t", 11⟩ : Entry).wanters_count := by
  constructor
  · rfl
  · decide

/-- C5 amended: the ceiling is enforced on every freshly parsed candidate
and on the parsed-cache fallback tiers, but a still-valid cache hit
inside the unparsed scan is returned without a ceiling re-check; hence
the ceiling holds for every returned card provided every initial cache
entry already respects it (as entries written by this code do). -/
theorem c5_desirability_ceiling (env : SelEnv CardData) (locked : List Nat)
    (maxWanters : Int) (inventory : List CardData)
    (parsed : List (String × Entry)) (rank : String) (target : Int)
    (hpick : ∀ l : List Entry, l ≠ [] → env.pick l ∈ l)
    (hb : CacheBound maxWanters parsed) :
    ∀ e, select_best_card env locked maxWanters inventory parsed rank target =
      some e → e.wanters_count ≤ maxWanters := by
  intro e h
  unfold select_best_card at h
  split at h
  · simp at h
  · by_cases hav : (filter_cards_by_rank env locked inventory rank).isEmpty
    · rw [if_neg (by simp [hav])] at h
      exact select_from_parsed_bound env locked maxWanters parsed rank
        target hpick h
    · rw [if_pos (by simp [hav])] at h
      dsimp only at h
      split at h
      · rename_i e0 hu
        obtain rfl : e0 = e := Option.some_injective _ h
        exact select_from_unparsed_bound env locked maxWanters _ _ _ _ hb hu
      · exact select_from_parsed_bound env locked maxWanters _ rank
          target hpick h

/-- Witness for the amended C5 at concrete inputs: with ceiling 10 and a
cache whose entries all respect the ceiling, the returned card has
desirability at most 10. -/
theorem c5_desirability_ceiling_witness :
    (⟨2, "b", "B", 3, 0, "", 102⟩ : Entry).wanters_count ≤ 10 :=
  c5_desirability_ceiling
    (⟨some, fun _ => true, fun _ => -1, fun l => l.headD entryDefault, id,
      "", 0⟩ : SelEnv CardData)
    [] 10 [] [("2", ⟨2, "b", "B", 3, 0, "", 102⟩)] "B" 5 headD_mem
    (by intro kv hkv; rw [List.mem_singleton] at hkv; subst hkv; decide)
    ⟨2, "b", "B", 3, 0, "", 102⟩ (by decide)

/-- C6: parsed-cache fallback ordering.  select_from_parsed returns a
member of the strictly-below tier when that tier is nonempty, else of
the exactly-equal tier, else the desirability-minimal member of the
closest-above tier (deterministically); and in the concrete Scenario B
(two rank-B entries of desirability 6 and 8, target 5, empty inventory)
the selector returns the desirability-6 entry. -/
theorem c6_parsed_fallback_ordering {α : Type} (env : SelEnv α)
    (locked : List Nat) (maxWanters : Int) (parsed : List (String × Entry))
    (rank : String) (target : Int)
    (hpick : ∀ l : List Entry, l ≠ [] → env.pick l ∈ l) :
    (parsedTierLess locked maxWanters rank target parsed ≠ [] →
      ∃ e, select_from_parsed env locked maxWanters parsed rank target =
        some e ∧ e ∈ parsedTierLess locked maxWanters rank target parsed) ∧
    (parsedTierLess locked maxWanters rank target parsed = [] →
      parsedTierEqual locked maxWanters rank target parsed ≠ [] →
      ∃ e, select_from_parsed env locked maxWanters parsed rank target =
        some e ∧ e ∈ parsedTierEqual locked maxWanters rank target parsed) ∧
    (parsedTierLess locked maxWanters rank target parsed = [] →
      parsedTierEqual locked maxWanters rank target parsed = [] →
      parsedTierClosest locked maxWanters rank target parsed ≠ [] →
      ∃ e, select_from_parsed env locked maxWanters parsed rank target =
        some e ∧ e ∈ parsedTierClosest locked maxWanters rank target parsed ∧
        ∀ x ∈ parsedTierClosest locked maxWanters rank target parsed,
          e.wanters_count ≤ x.wanters_count) ∧
    select_best_card (⟨some, fun _ => true, fun _ => -1,
        fun l => l.headD entryDefault, id, "", 0⟩ : SelEnv CardData)
      [] 10 [] [("1", ⟨1, "a", "B", 6, 0, "", 101⟩),
        ("2", ⟨2, "b", "B", 8, 0, "", 102⟩)] "B" 5 =
      some ⟨1, "a", "B", 6, 0, "", 101⟩ := by
  refine ⟨?_, ?_, ?_, by rfl⟩
  · intro hne
    refine ⟨env.pick (parsedTierLess locked maxWanters rank target parsed),
      ?_, hpick _ hne⟩
    unfold select_from_parsed
    rw [if_pos hne]
  · intro h1 h2
    refine ⟨env.pick (parsedTierEqual locked maxWanters rank target parsed),
      ?_, hpick _ h2⟩
    unfold select_from_parsed
    rw [if_neg (by simp [h1]), if_pos h2]
  · intro h1 h2 h3
    cases hs : sortByWanters (parsedTierClosest locked maxWanters rank target
        parsed) with
    | nil => exact absurd (sortByWanters_nil hs) h3
    | cons b r =>
      refine ⟨b, ?_, mem_sortByWanters (by rw [hs]; simp),
        sortByWanters_head_min hs⟩
      unfold select_from_parsed
      rw [if_neg (by simp [h1]), if_neg (by simp [h2]), hs]

/-- Witness for C6 at concrete inputs: with both tiers below and at the
target empty and the closest-above tier holding the desirability-6 and
desirability-8 entries, the selector returns a minimal member of that
tier. -/
theorem c6_parsed_fallback_ordering_witness :
    ∃ e, select_from_parsed (⟨some, fun _ => true, fun _ => -1,
        fun l => l.headD entryDefault, id, "", 0⟩ : SelEnv CardData)
      [] 10 [("1", ⟨1, "a", "B", 6, 0, "", 101⟩),
        ("2", ⟨2, "b", "B", 8, 0, "", 102⟩)] "B" 5 = some e ∧
      e ∈ parsedTierClosest [] 10 "B" 5 [("1", ⟨1, "a", "B", 6, 0, "", 101⟩),
        ("2", ⟨2, "b", "B", 8, 0, "", 102⟩)] ∧
      ∀ x ∈ parsedTierClosest [] 10 "B" 5 [("1", ⟨1, "a", "B", 6, 0, "", 101⟩),
        ("2", ⟨2, "b", "B", 8, 0, "", 102⟩)],
        e.wanters_count ≤ x.wanters_count :=
  (c6_parsed_fallback_ordering (⟨some, fun _ => true, fun _ => -1,
      fun l => l.headD entryDefault, id, "", 0⟩ : SelEnv CardData)
    [] 10 [("1", ⟨1, "a", "B", 6, 0, "", 101⟩),
      ("2", ⟨2, "b", "B", 8, 0, "", 102⟩)] "B" 5 headD_mem).2.2.1
    (by decide) (by decide) (by decide)

/-! ## Owners processor theorems (C3) -/

/-- C3 counterexample.  One page with two owners; the monitor flag is
false through every check made while processing owner 1 (reads 0, 1, 2)
and true from read 3 on, i.e. the goal changes between owner 1 and
owner 2.  The claim predicts a returned count of exactly 1 for that
page; the code returns 0 (the partial page is not counted at all),
dispatching only to owner 1. -/
theorem c3_counterexample :
    process_page_by_page
      (⟨true, fun k => decide (3 ≤ k),
        fun _ => ([⟨1, "o1"⟩, ⟨2, "o2"⟩], false),
        fun _ => some ⟨5, "c", "B", 2, 0, "", 7⟩, fun _ => true⟩ : ProcEnv)
      5 1 0 ⟨0, 0, 0, []⟩ = some (0, ⟨4, 1, 1, [1]⟩) ∧ (0 : Nat) ≠ 1 := by
  constructor
  · rfl
  · decide

theorem process_owner_break_no_dispatch (env : ProcEnv) (o : Owner)
    (st : ProcState) (h : (process_owner env o st).2.1 = true) :
    (process_owner env o st).2.2.dispatched = st.dispatched := by
  by_cases hm : env.hasMonitor
  · by_cases f1 : env.flag st.ticks
    · simp [process_owner, readFlag, hm, f1]
    · cases hsel : env.selectRes st.selCount with
      | none => simp [process_owner, readFlag, hm, f1, hsel] at h
      | some e =>
        by_cases f2 : env.flag (st.ticks + 1)
        · simp [process_owner, readFlag, hm, f1, hsel, f2]
        · simp [process_owner, readFlag, hm, f1, hsel, f2] at h
  · cases hsel : env.selectRes st.selCount with
    | none => simp [process_owner, readFlag, hm, hsel] at h
    | some e => simp [process_owner, readFlag, hm, hsel] at h

theorem c3_helper_page_return (env : ProcEnv) (fuel page total : Nat)
    (st r : ProcState) (owners : List Owner) (hasNext : Bool)
    (st2 : ProcState) (hflag : readFlag env st = (false, r))
    (hpg : env.pages page = (owners, hasNext))
    (hne : owners.isEmpty = false)
    (hbrk : processOwnersList env owners r = (true, st2)) :
    process_page_by_page env (fuel + 1) page total st = some (total, st2) := by
  rw [process_page_by_page]
  dsimp only
  rw [hflag]
  dsimp only
  rw [hpg]
  dsimp only
  unfold processPageStep
  rw [hne, hbrk]
  dsimp only
  rfl

/-- C3 amended: once the goal-changed flag is observed set, the processor
never dispatches to the owner at which the interruption was detected,
and a page interrupted mid-way contributes none of its owners to the
returned count: the call returns the total accumulated from previously
completed pages only (not the partial count N claimed). -/
theorem c3_interruption_partial_count :
    (∀ (env : ProcEnv) (o : Owner) (st : ProcState),
      (process_owner env o st).2.1 = true →
      (process_owner env o st).2.2.dispatched = st.dispatched) ∧
    (∀ (env : ProcEnv) (fuel page total : Nat) (st r : ProcState)
      (owners : List Owner) (hasNext : Bool) (st2 : ProcState),
      readFlag env st = (false, r) →
      env.pages page = (owners, hasNext) →
      owners.isEmpty = false →
      processOwnersList env owners r = (true, st2) →
      process_page_by_page env (fuel + 1) page total st = some (total, st2)) :=
  ⟨process_owner_break_no_dispatch, c3_helper_page_return⟩

/-- Witness for the amended C3 at concrete inputs: with the flag set from
read 3 on, processing owner 2 breaks without extending the dispatch
log, and the whole call returns the pre-page total 0 with final state
matching the counterexample run. -/
theorem c3_interruption_partial_count_witness :
    (process_owner
      (⟨true, fun _ => true, fun _ => ([], false), fun _ => none,
        fun _ => false⟩ : ProcEnv) ⟨2, "o2"⟩ ⟨3, 1, 1, [1]⟩).2.2.dispatched =
      [1] ∧
    process_page_by_page
      (⟨true, fun k => decide (3 ≤ k),
        fun _ => ([⟨1, "o1"⟩, ⟨2, "o2"⟩], false),
        fun _ => some ⟨5, "c", "B", 2, 0, "", 7⟩, fun _ => true⟩ : ProcEnv)
      5 1 0 ⟨0, 0, 0, []⟩ = some (0, ⟨4, 1, 1, [1]⟩) := by
  constructor
  · exact c3_interruption_partial_count.1 _ ⟨2, "o2"⟩ ⟨3, 1, 1, [1]⟩ (by decide)
  · exact c3_interruption_partial_count.2 _ 4 1 0 ⟨0, 0, 0, []⟩ ⟨1, 0, 0, []⟩
      [⟨1, "o1"⟩, ⟨2, "o2"⟩] false ⟨4, 1, 1, [1]⟩ (by decide) rfl (by decide)
      (by decide)

/-! ## Rate limiter theorems (C7) -/

theorem length_filter_mono {β : Type} {l : List β} {p q : β → Bool}
    (h : ∀ x ∈ l, p x = true → q x = true) :
    (l.filter p).length ≤ (l.filter q).length := by
  induction l with
  | nil => simp
  | cons a l ih =>
    have ih2 := ih (fun x hx hp => h x (List.mem_cons_of_mem _ hx) hp)
    by_cases hp : p a = true
    · have hq := h a (List.mem_cons_self a l) hp
      simp only [List.filter_cons, hp, hq, if_true, List.length_cons]
      exact Nat.succ_le_succ ih2
    · have hp2 : p a = false := by revert hp; cases p a <;> simp
      simp only [List.filter_cons, hp2, Bool.false_eq_true, if_false]
      cases hq : q a
      · simp only [Bool.false_eq_true, if_false]
        exact ih2
      · simp only [if_true, List.length_cons]
        exact le_trans ih2 (Nat.le_succ _)

theorem le_recordTime (st : RLState) (req : Nat) :
    max st.clock req ≤ recordTime st req := by
  unfold recordTime
  split
  · rename_i hcnt
    cases hwc : windowCalls (max st.clock req) st.log with
    | nil =>
      rw [hwc] at hcnt
      simp [RATE_LIMIT_PER_MINUTE] at hcnt
    | cons a tl =>
      have hmem : a ∈ windowCalls (max st.clock req) st.log := by
        rw [hwc]; exact List.mem_cons_self a tl
      have := (List.mem_filter.mp hmem).2
      simp only [decide_eq_true_eq] at this
      simp only [List.headD]
      exact Nat.le_of_lt this
  · exact Nat.le_refl _

theorem windowCalls_eq_inWindow (st : RLState) (req : Nat)
    (hle : ∀ t ∈ st.log, t ≤ st.clock) :
    windowCalls (max st.clock req) st.log =
      st.log.filter (inWindow (max st.clock req)) := by
  unfold windowCalls
  apply List.filter_congr
  intro t ht
  have h1 : t ≤ max st.clock req := le_trans (hle t ht) (Nat.le_max_left _ _)
  simp [inWindow, h1]

theorem windowCalls_recordTime_lt (st : RLState) (req : Nat)
    (hle : ∀ t ∈ st.log, t ≤ st.clock)
    (hwin : ∀ m, (st.log.filter (inWindow m)).length ≤ RATE_LIMIT_PER_MINUTE) :
    (windowCalls (recordTime st req) st.log).length < RATE_LIMIT_PER_MINUTE := by
  unfold recordTime
  split
  · rename_i hcnt
    have hwle : (windowCalls (max st.clock req) st.log).length ≤
        RATE_LIMIT_PER_MINUTE := by
      rw [windowCalls_eq_inWindow st req hle]
      exact hwin _
    cases hwc : windowCalls (max st.clock req) st.log with
    | nil =>
      rw [hwc] at hcnt
      simp [RATE_LIMIT_PER_MINUTE] at hcnt
    | cons a tl =>
      have hamem : a ∈ windowCalls (max st.clock req) st.log := by
        rw [hwc]; exact List.mem_cons_self a tl
      have ha : max st.clock req < a + RATE_LIMIT_WINDOW := by
        have := (List.mem_filter.mp hamem).2
        simpa using this
      simp only [List.headD]
      have heq : windowCalls (a + RATE_LIMIT_WINDOW) st.log =
          st.log.filter (fun t => decide (a < t)) := by
        unfold windowCalls
        apply List.filter_congr
        intro t _
        simp only [Nat.add_lt_add_iff_right]
      rw [heq]
      have hsub : st.log.filter (fun t => decide (a < t)) =
          (windowCalls (max st.clock req) st.log).filter
            (fun t => decide (a < t)) := by
        unfold windowCalls
        rw [List.filter_filter]
        apply List.filter_congr
        intro t _
        by_cases hat : a < t
        · have h2 : max st.clock req < t + RATE_LIMIT_WINDOW := by
            simp only [RATE_LIMIT_WINDOW] at ha ⊢
            omega
          simp [hat, h2]
        · simp [hat]
      rw [hsub, hwc]
      have hstep : (a :: tl).filter (fun t => decide (a < t)) =
          tl.filter (fun t => decide (a < t)) := by
        simp [List.filter_cons]
      rw [hstep]
      calc (tl.filter (fun t => decide (a < t))).length
          ≤ tl.length := List.length_filter_le _ _
        _ < (a :: tl).length := by simp
        _ ≤ RATE_LIMIT_PER_MINUTE := hwc ▸ hwle
  · rename_i hcnt
    exact Nat.lt_of_not_le hcnt

theorem wait_and_record_inv (st : RLState) (req : Nat) (hinv : RLInv st) :
    RLInv (wait_and_record st req) := by
  obtain ⟨hle, hwin⟩ := hinv
  constructor
  · intro t ht
    unfold wait_and_record at ht ⊢
    dsimp only at ht ⊢
    rcases List.mem_append.mp ht with h1 | h1
    · exact le_trans (le_trans (hle t h1) (Nat.le_max_left _ _))
        (le_recordTime st req)
    · simp only [List.mem_singleton] at h1
      simp [h1]
  · intro m
    unfold wait_and_record
    dsimp only
    rw [List.filter_append]
    by_cases he : inWindow m (recordTime st req) = true
    · have h1 : (st.log.filter (inWindow m)).length ≤
          (windowCalls (recordTime st req) st.log).length := by
        apply length_filter_mono
        intro t _ hw
        simp only [inWindow, Bool.and_eq_true, decide_eq_true_eq] at hw he
        simp only [decide_eq_true_eq]
        omega
      have h2 := windowCalls_recordTime_lt st req hle hwin
      have h3 : (List.filter (inWindow m) [recordTime st req]).length ≤ 1 := by
        simp only [List.filter]
        split <;> simp
      rw [List.length_append]
      omega
    · have he2 : inWindow m (recordTime st req) = false := by
        revert he; cases inWindow m (recordTime st req) <;> simp
      have hnil : List.filter (inWindow m) [recordTime st req] = [] := by
        simp [List.filter, he2]
      rw [hnil, List.append_nil]
      exact hwin m

theorem foldl_limiter_inv (reqs : List Nat) (st : RLState) (h : RLInv st) :
    RLInv (reqs.foldl wait_and_record st) := by
  induction reqs generalizing st with
  | nil => exact h
  | cons r rest ih => exact ih _ (wait_and_record_inv st r h)

theorem runLimiter_inv (reqs : List Nat) : RLInv (runLimiter reqs) := by
  apply foldl_limiter_inv
  constructor
  · intro t ht; simp at ht
  · intro m; simp

/-- C7: rate monotonicity.  For every run of the limiter and every
60-second window (m - 60, m], at most RATE_LIMIT_PER_MINUTE recorded
calls fall inside the window; and a call arriving while the trailing
window already holds the ceiling is recorded only at oldest + window,
i.e. the caller blocks until the oldest recorded call leaves the
window. -/
theorem c7_rate_monotonicity :
    (∀ (reqs : List Nat) (m : Nat),
      ((runLimiter reqs).log.filter (inWindow m)).length ≤
        RATE_LIMIT_PER_MINUTE) ∧
    (∀ (st : RLState) (req : Nat),
      RATE_LIMIT_PER_MINUTE ≤
        (windowCalls (max st.clock req) st.log).length →
      wait_and_record st req =
        ⟨(windowCalls (max st.clock req) st.log).headD 0 + RATE_LIMIT_WINDOW,
          st.log ++
            [(windowCalls (max st.clock req) st.log).headD 0 +
              RATE_LIMIT_WINDOW]⟩) := by
  constructor
  · intro reqs m
    exact (runLimiter_inv reqs).2 m
  · intro st req h
    unfold wait_and_record recordTime
    rw [if_pos h]

set_option maxRecDepth 4000 in
/-- Witness for C7 at the Scenario E input: 66 calls all recorded at
second 20; a 67th call arriving at second 40 finds 66 calls in its
trailing window and is recorded only at second 80 = 20 + 60, when the
oldest call leaves the window. -/
theorem c7_rate_monotonicity_witness :
    wait_and_record (runLimiter (List.replicate 66 20)) 40 =
      ⟨(windowCalls (max (runLimiter (List.replicate 66 20)).clock 40)
          (runLimiter (List.replicate 66 20)).log).headD 0 +
        RATE_LIMIT_WINDOW,
        (runLimiter (List.replicate 66 20)).log ++
          [(windowCalls (max (runLimiter (List.replicate 66 20)).clock 40)
              (runLimiter (List.replicate 66 20)).log).headD 0 +
            RATE_LIMIT_WINDOW]⟩ ∧
    wait_and_record (runLimiter (List.replicate 66 20)) 40 =
      ⟨80, List.replicate 66 20 ++ [80]⟩ := by
  constructor
  · exact c7_rate_monotonicity.2 (runLimiter (List.replicate 66 20)) 40
      (by decide)
  · decide

/-! ## Recovery manager theorems (C8) -/

/-- C8: recovery classification and retry.  Transport-failure substrings
and 5xx statuses classify as recoverable; the default attempt ceiling 0
means unbounded retries; a successful attempt resets the counter and
returns the run's result; a fatal error stops immediately with exit
code 1 after cleanup only; a recoverable error performs cleanup then the
fixed 300-second cooldown and retries with the counter incremented. -/
theorem c8_recovery_classification :
    (∀ (e : PyError) (status : Nat), e.response = some (true, status) →
      500 ≤ status → is_recoverable_error e = true) ∧
    (∀ (e : PyError) (sub : String), sub ∈ network_errors →
      strContains (lowerStr e.msg) sub = true →
      is_recoverable_error e = true) ∧
    (∀ attempts, should_retry MAX_RECOVERY_ATTEMPTS attempts = true) ∧
    (∀ (outcomes : Nat → RunOutcome) (fuel attempts : Nat) (r : Int),
      outcomes attempts = RunOutcome.ok r →
      run_with_recovery outcomes MAX_RECOVERY_ATTEMPTS (fuel + 1) attempts =
        some (r, 0, [])) ∧
    (∀ (outcomes : Nat → RunOutcome) (fuel attempts : Nat) (e : PyError),
      outcomes attempts = RunOutcome.err e →
      is_recoverable_error e = false →
      run_with_recovery outcomes MAX_RECOVERY_ATTEMPTS (fuel + 1) attempts =
        some (1, attempts, [REv.cleanup])) ∧
    (∀ (outcomes : Nat → RunOutcome) (fuel attempts : Nat) (e : PyError),
      outcomes attempts = RunOutcome.err e →
      is_recoverable_error e = true →
      run_with_recovery outcomes MAX_RECOVERY_ATTEMPTS (fuel + 1) attempts =
        (run_with_recovery outcomes MAX_RECOVERY_ATTEMPTS fuel
          (attempts + 1)).map
          (fun x => (x.1, x.2.1,
            [REv.cleanup, REv.cooldown RECOVERY_RETRY_INTERVAL] ++ x.2.2))) := by
  refine ⟨?_, ?_, ?_, ?_, ?_, ?_⟩
  · intro e status hresp hge
    unfold is_recoverable_error
    rw [hresp]
    by_cases hA : network_errors.any (fun sub => strContains (lowerStr e.msg) sub)
    · simp [hA]
    · by_cases hB : server_errors.any (fun sub => strContains (lowerStr e.msg) sub)
      · simp [hA, hB]
      · simp [hA, hB, hge]
  · intro e sub hsub hocc
    have hA : network_errors.any (fun s => strContains (lowerStr e.msg) s) = true :=
      List.any_eq_true.mpr ⟨sub, hsub, hocc⟩
    unfold is_recoverable_error
    simp [hA]
  · intro attempts
    rfl
  · intro outcomes fuel attempts r hout
    rw [run_with_recovery]
    rw [hout]
    rfl
  · intro outcomes fuel attempts e hout hrec
    rw [run_with_recovery]
    rw [hout]
    simp only [should_retry, MAX_RECOVERY_ATTEMPTS, if_pos rfl, Bool.not_true,
      Bool.false_eq_true, if_false, hrec, Bool.not_false, if_true]
  · intro outcomes fuel attempts e hout hrec
    rw [run_with_recovery]
    rw [hout]
    simp only [should_retry, MAX_RECOVERY_ATTEMPTS, if_pos rfl, Bool.not_true,
      Bool.false_eq_true, if_false, hrec, Bool.not_true]
    cases hr : run_with_recovery outcomes 0 fuel (attempts + 1) with
    | none => rfl
    | some x => rfl

/-- Witness for C8 at concrete inputs: a 503-status error and a
connection-timeout message classify as recoverable; retries are
unbounded at attempt 7; a run returning 0 at attempt 2 ends the loop
with code 0 and a reset counter; an authentication error stops with exit
1 after cleanup; a timeout error leads to cleanup, a 300-second
cooldown, and a retry that then succeeds. -/
theorem c8_recovery_classification_witness :
    is_recoverable_error ⟨"boom", some (true, 503)⟩ = true ∧
    is_recoverable_error ⟨"Connection timeout", none⟩ = true ∧
    should_retry MAX_RECOVERY_ATTEMPTS 7 = true ∧
    run_with_recovery (fun _ => RunOutcome.ok 0) MAX_RECOVERY_ATTEMPTS 3 2 =
      some (0, 0, []) ∧
    run_with_recovery (fun _ => RunOutcome.err ⟨"auth failed", none⟩)
      MAX_RECOVERY_ATTEMPTS 3 0 = some (1, 0, [REv.cleanup]) ∧
    run_with_recovery (fun k => if k = 0 then
        RunOutcome.err ⟨"Connection timeout", none⟩ else RunOutcome.ok 0)
      MAX_RECOVERY_ATTEMPTS 2 0 =
      some (0, 0, [REv.cleanup, REv.cooldown RECOVERY_RETRY_INTERVAL]) := by
  refine ⟨?_, ?_, c8_recovery_classification.2.2.1 7, ?_, ?_, ?_⟩
  · exact c8_recovery_classification.1 ⟨"boom", some (true, 503)⟩ 503 rfl
      (by decide)
  · exact c8_recovery_classification.2.1 ⟨"Connection timeout", none⟩
      "timeout" (by decide) (by decide)
  · exact c8_recovery_classification.2.2.2.1 (fun _ => RunOutcome.ok 0) 2 2 0
      rfl
  · exact c8_recovery_classification.2.2.2.2.1
      (fun _ => RunOutcome.err ⟨"auth failed", none⟩) 2 0
      ⟨"auth failed", none⟩ rfl (by decide)
  · rw [c8_recovery_classification.2.2.2.2.2
      (fun k => if k = 0 then RunOutcome.err ⟨"Connection timeout", none⟩
        else RunOutcome.ok 0) 1 0 ⟨"Connection timeout", none⟩ rfl (by decide)]
    rfl

/-! ## Daily statistics theorems (C9) -/

/-- C9: the daily quota is server-authoritative.  Every can_donate and
can_replace decision (whose force_refresh argument defaults to True at
every call site) performs exactly one remote fetch, is independent of
whatever is in the local cache, and equals a pure function of the fetch
outcome — config defaults when the fetch fails, never a locally
accumulated counter. -/
theorem c9_server_authoritative (fetch : Option PageParse)
    (c1 c2 : Option DailyStats) :
    ((can_donate fetch true c1).2.2 = 1 ∧
      (can_replace fetch true c1).2.2 = 1) ∧
    ((can_donate fetch true c1).1 = (can_donate fetch true c2).1 ∧
      (can_replace fetch true c1).1 = (can_replace fetch true c2).1) ∧
    (can_donate fetch true c1).1 =
      decide ((statsOfFetch fetch).donations_left > 0) ∧
    (can_replace fetch true c1).1 =
      decide ((statsOfFetch fetch).replacements_left > 0) := by
  cases fetch with
  | none =>
    refine ⟨⟨rfl, rfl⟩, ⟨rfl, rfl⟩, rfl, rfl⟩
  | some p =>
    refine ⟨⟨rfl, rfl⟩, ⟨rfl, rfl⟩, rfl, rfl⟩

/-! ## Main loop theorems (C4) -/

set_option maxHeartbeats 2000000 in
/-- C4: ledger reset on goal change.  In any normal iteration of the
processing loop, every goal replacement comes with a reset_state call;
the ledger is cleared only by a reset (goal change) or by a successful
cancel-all; when neither occurs the ledger only grows by the trades
marked during the scan; and reset_state empties the ledger, the lock set
and the last-trade timestamp. -/
theorem c4_ledger_reset_on_goal_change (env : MainEnv) (st : AppTM) :
    (MEv.goalReplaced ∈ (run_processing_iteration env st).2.1 →
      MEv.reset ∈ (run_processing_iteration env st).2.1) ∧
    (MEv.cleared ∈ (run_processing_iteration env st).2.1 →
      MEv.reset ∈ (run_processing_iteration env st).2.1 ∨
      MEv.cancelAttempt ∈ (run_processing_iteration env st).2.1) ∧
    (MEv.cleared ∉ (run_processing_iteration env st).2.1 →
      (run_processing_iteration env st).1.tm.sent_trades =
        st.tm.sent_trades ++ env.addedPairs) ∧
    (∀ st2 : AppTM, reset_state st2 = ⟨⟨[], []⟩, 0⟩) := by
  obtain ⟨nr, ro, mo, mr, cc, tp, bh, dr, co, ap, al⟩ := env
  refine ⟨?_, ?_, ?_, fun st2 => rfl⟩ <;>
  · cases nr <;> cases ro <;> cases mo <;> cases mr <;> cases cc <;>
      cases tp <;> cases bh <;> cases dr <;> cases co <;>
      simp [run_processing_iteration, reset_state, cancel_all_sent_trades,
        clear_sent_trades]

/-- Witness for C4 at concrete inputs: an iteration whose goal card is
replaced (auto-replacement succeeds) has a reset in its trace; its
cleared trace entry is justified by that reset; and an iteration with no
monitor and no replacement leaves the ledger equal to the old pairs plus
the newly marked ones. -/
theorem c4_ledger_reset_on_goal_change_witness :
    MEv.reset ∈ (run_processing_iteration
      ⟨true, true, false, false, false, false, false, true, false, [], []⟩
      ⟨⟨[(1, 2)], [3]⟩, 9⟩).2.1 ∧
    (MEv.reset ∈ (run_processing_iteration
      ⟨true, true, false, false, false, false, false, true, false, [], []⟩
      ⟨⟨[(1, 2)], [3]⟩, 9⟩).2.1 ∨
     MEv.cancelAttempt ∈ (run_processing_iteration
      ⟨true, true, false, false, false, false, false, true, false, [], []⟩
      ⟨⟨[(1, 2)], [3]⟩, 9⟩).2.1) ∧
    (run_processing_iteration
      ⟨false, false, false, false, false, false, false, true, false,
        [(4, 5)], [6]⟩ ⟨⟨[(1, 2)], [3]⟩, 9⟩).1.tm.sent_trades =
      [(1, 2)] ++ [(4, 5)] ∧
    reset_state ⟨⟨[(1, 2)], [3]⟩, 9⟩ = ⟨⟨[], []⟩, 0⟩ := by
  refine ⟨?_, ?_, ?_, ?_⟩
  · exact (c4_ledger_reset_on_goal_change
      ⟨true, true, false, false, false, false, false, true, false, [], []⟩
      ⟨⟨[(1, 2)], [3]⟩, 9⟩).1 (by decide)
  · exact (c4_ledger_reset_on_goal_change
      ⟨true, true, false, false, false, false, false, true, false, [], []⟩
      ⟨⟨[(1, 2)], [3]⟩, 9⟩).2.1 (by decide)
  · exact (c4_ledger_reset_on_goal_change
      ⟨false, false, false, false, false, false, false, true, false,
        [(4, 5)], [6]⟩ ⟨⟨[(1, 2)], [3]⟩, 9⟩).2.2.1 (by decide)
  · exact (c4_ledger_reset_on_goal_change
      ⟨false, false, false, false, false, false, false, true, false, [], []⟩
      ⟨⟨[], []⟩, 0⟩).2.2.2 ⟨⟨[(1, 2)], [3]⟩, 9⟩

end Mangabuff
